import Mathlib

/-
Shallow embedding of src/service/internal/credentials/vault.go.

The Vault backend (hashicorp vault client) is modelled as a record of
response functions; every provider operation returns its result together
with the exact sequence of backend calls it issued.  Go runtime panics
(failed type assertions, nil-pointer dereference, index out of range)
are modelled by the dedicated outcome `Outcome.panic`.
-/

set_option autoImplicit false

namespace Credentials

/-- A dynamic value stored in a vault `map[string]interface \x7b\x7d`
(the JSON-level shapes that actually occur in the source). -/
inductive VaultValue where
  | vStr (s : String)
  | vInt (n : Int)
  | vBool (b : Bool)
  | vList (xs : List VaultValue)

mutual

def VaultValue.decEq : (a b : VaultValue) → Decidable (a = b)
  | .vStr a, .vStr b =>
    match inferInstanceAs (Decidable (a = b)) with
    | isTrue h => isTrue (by rw [h])
    | isFalse h => isFalse (by intro hh; injection hh; contradiction)
  | .vInt a, .vInt b =>
    match inferInstanceAs (Decidable (a = b)) with
    | isTrue h => isTrue (by rw [h])
    | isFalse h => isFalse (by intro hh; injection hh; contradiction)
  | .vBool a, .vBool b =>
    match inferInstanceAs (Decidable (a = b)) with
    | isTrue h => isTrue (by rw [h])
    | isFalse h => isFalse (by intro hh; injection hh; contradiction)
  | .vList a, .vList b =>
    match VaultValue.decEqList a b with
    | isTrue h => isTrue (by rw [h])
    | isFalse h => isFalse (by intro hh; injection hh; contradiction)
  | .vStr _, .vInt _ => isFalse (by intro h; exact VaultValue.noConfusion h)
  | .vStr _, .vBool _ => isFalse (by intro h; exact VaultValue.noConfusion h)
  | .vStr _, .vList _ => isFalse (by intro h; exact VaultValue.noConfusion h)
  | .vInt _, .vStr _ => isFalse (by intro h; exact VaultValue.noConfusion h)
  | .vInt _, .vBool _ => isFalse (by intro h; exact VaultValue.noConfusion h)
  | .vInt _, .vList _ => isFalse (by intro h; exact VaultValue.noConfusion h)
  | .vBool _, .vStr _ => isFalse (by intro h; exact VaultValue.noConfusion h)
  | .vBool _, .vInt _ => isFalse (by intro h; exact VaultValue.noConfusion h)
  | .vBool _, .vList _ => isFalse (by intro h; exact VaultValue.noConfusion h)
  | .vList _, .vStr _ => isFalse (by intro h; exact VaultValue.noConfusion h)
  | .vList _, .vInt _ => isFalse (by intro h; exact VaultValue.noConfusion h)
  | .vList _, .vBool _ => isFalse (by intro h; exact VaultValue.noConfusion h)

def VaultValue.decEqList : (a b : List VaultValue) → Decidable (a = b)
  | [], [] => isTrue rfl
  | [], _ :: _ => isFalse (by intro h; exact List.noConfusion h)
  | _ :: _, [] => isFalse (by intro h; exact List.noConfusion h)
  | x :: xs, y :: ys =>
    match VaultValue.decEq x y, VaultValue.decEqList xs ys with
    | isTrue h1, isTrue h2 => isTrue (by rw [h1, h2])
    | isFalse h1, _ => isFalse (by intro hh; injection hh; contradiction)
    | _, isFalse h2 => isFalse (by intro hh; injection hh; contradiction)

end

instance : DecidableEq VaultValue := VaultValue.decEq

/-- Model of `*vault.Secret`: generic key-value data plus the optional
auth block (`Secret.Auth.ClientToken`). `auth = none` models a nil
`Auth` pointer. -/
structure VSecret where
  data : List (String × VaultValue)
  auth : Option String
  deriving DecidableEq

/-- Go map indexing `m[k]`: first binding wins, missing key yields the
nil interface value, modelled as `none`. -/
def lookupData : List (String × VaultValue) → String → Option VaultValue
  | [], _ => none
  | (k2, v) :: rest, k => if k2 = k then some v else lookupData rest k

/-- Errors returned by provider operations: the sentinel `ErrNotFound`
and message errors built with `errors.New` / `fmt.Errorf`. -/
inductive VErr where
  | notFound
  | msg (s : String)
  deriving DecidableEq

/-- Result of running one Go function: a value, an error, or a runtime
panic (nil dereference, failed type assertion, out-of-range index). -/
inductive Outcome (α : Type) where
  | ok (a : α)
  | err (e : VErr)
  | panic
  deriving DecidableEq

/-- One backend call, as issued by the provider (path and payload). -/
inductive BCall where
  | read (path : String)
  | write (path : String) (data : List (String × VaultValue))
  | delete (path : String)
  | listCall (path : String)
  | putPolicy (name rules : String)
  | deletePolicy (name : String)
  deriving DecidableEq

/-- The secret backend collaborator: `vaultLogical` plus `vaultSys`.
`putPolicy`/`deletePolicy` return `some e` on error, `none` on success. -/
structure Backend where
  read : String → Except String (Option VSecret)
  write : String → List (String × VaultValue) → Except String (Option VSecret)
  delete : String → Except String (Option VSecret)
  listKeys : String → Except String (Option VSecret)
  putPolicy : String → String → Option String
  deletePolicy : String → Option String

-- Vault constants (vault.go lines 37-40 and 214-220).
def vaultAppRolePath : String := "auth/approle/role"
def vaultProjectPfx : String := "argo-cloudops-projects"
def vaultSecretTTL : String := "8776h"
def vaultTokenMaxTTL : String := "10m"
def vaultTokenNumUses : Int := 3

/-- Authorization represents a caller token (vault.go lines 66-70). -/
structure Authorization where
  Provider : String
  Key : String
  Secret : String
  deriving DecidableEq

/-- `Authorization.IsAdmin` (vault.go lines 93-95). -/
def Authorization.IsAdmin (a : Authorization) : Bool :=
  a.Key == "admin"

/-- `Authorization.AuthorizedAdmin` (vault.go lines 98-100). -/
def Authorization.AuthorizedAdmin (a : Authorization) (adminSecret : String) : Bool :=
  a.IsAdmin && (a.Secret == adminSecret)

/-- The state a `VaultProvider` binds at construction (the two backend
service handles are passed explicitly to each operation). -/
structure VaultProvider where
  roleID : String
  secretID : String
  deriving DecidableEq

/-- `NewVaultProvider` (vault.go lines 54-63): binds `a.Key` as roleID
and `a.Secret` as secretID. -/
def NewVaultProvider (a : Authorization) : VaultProvider :=
  { roleID := a.Key, secretID := a.Secret }

/-- `VaultProvider.isAdmin` (vault.go lines 279-281). -/
def VaultProvider.isAdmin (v : VaultProvider) : Bool :=
  v.roleID == "admin"

/-- One step of `strings.SplitN(s, ":", _)`: the segment before the
first colon, and the remainder after it when a colon exists. -/
def splitFirstColon : List Char → List Char × Option (List Char)
  | [] => ([], none)
  | c :: rest =>
    if c = ':' then ([], some rest)
    else
      let r := splitFirstColon rest
      (c :: r.1, r.2)

/-- `strings.SplitN(s, ":", 3)`: at most two delimiter-significant
splits, the third segment keeps any further colons verbatim. -/
def splitN3Colon (s : String) : List String :=
  let p1 := splitFirstColon s.toList
  match p1.2 with
  | none => [String.mk p1.1]
  | some r1 =>
    let p2 := splitFirstColon r1
    match p2.2 with
    | none => [String.mk p1.1, String.mk p2.1]
    | some r2 => [String.mk p1.1, String.mk p2.1, String.mk r2]

/-- `NewAuthorization` (vault.go lines 74-89): split into at most three
segments, reject any empty segment or fewer than three segments. -/
def NewAuthorization (authorizationHeader : String) : Except String Authorization :=
  let auth := splitN3Colon authorizationHeader
  if "" ∈ auth then .error "invalid authorization header provided"
  else if auth.length < 3 then .error "invalid authorization header provided"
  else .ok { Provider := auth.getD 0 "", Key := auth.getD 1 "", Secret := auth.getD 2 "" }

/-- `TargetProperties` (vault.go lines 102-106). -/
structure TargetProperties where
  CredentialType : String
  PolicyArns : List String
  RoleArn : String
  deriving DecidableEq

/-- `CreateTargetRequest` (vault.go lines 108-112). -/
structure CreateTargetRequest where
  Name : String
  Properties : TargetProperties
  «Type» : String
  deriving DecidableEq

/-- Policy name `fmt.Sprintf("%s-%s", vaultProjectPrefix, name)`. -/
def projectPolicyName (name : String) : String :=
  vaultProjectPfx ++ "-" ++ name

/-- `genProjectAppRole` (vault.go lines 122-124). -/
def genProjectAppRole (name : String) : String :=
  vaultAppRolePath ++ "/" ++ vaultProjectPfx ++ "-" ++ name

/-- `defaultVaultReadonlyPolicyAWS` (vault.go lines 177-182). -/
def defaultVaultReadonlyPolicyAWS (projectName : String) : String :=
  "path \"aws/sts/argo-cloudops-projects-" ++ projectName ++
    "-target-*\" \x7b capabilities = [\"read\"] \x7d"

/-- `createPolicyState` (vault.go lines 118-120). -/
def createPolicyState (b : Backend) (name policy : String) :
    Option String × List BCall :=
  (b.putPolicy (projectPolicyName name) policy,
   [.putPolicy (projectPolicyName name) policy])

/-- The fixed options map of `writeProjectState` (vault.go lines 346-352). -/
def writeProjectStateOptions (name : String) : List (String × VaultValue) :=
  [("secret_id_ttl", .vStr vaultSecretTTL),
   ("token_max_ttl", .vStr vaultTokenMaxTTL),
   ("token_no_default_policy", .vStr "true"),
   ("token_num_uses", .vInt vaultTokenNumUses),
   ("token_policies", .vStr (projectPolicyName name))]

/-- `writeProjectState` (vault.go lines 345-359): the returned secret is
ignored, only the error is inspected. -/
def VaultProvider.writeProjectState (v : VaultProvider) (b : Backend) (name : String) :
    Option String × List BCall :=
  match b.write (genProjectAppRole name) (writeProjectStateOptions name) with
  | .error e => (some e, [.write (genProjectAppRole name) (writeProjectStateOptions name)])
  | .ok _ => (none, [.write (genProjectAppRole name) (writeProjectStateOptions name)])

/-- Path of the role-id read of `readRoleID`. -/
def roleIdPath (name : String) : String :=
  genProjectAppRole name ++ "/role-id"

/-- Path of the secret-id write of `readSecretID`. -/
def secretIdPath (name : String) : String :=
  genProjectAppRole name ++ "/secret-id"

/-- Options map of `readSecretID` (vault.go lines 330-332). -/
def readSecretIDOptions : List (String × VaultValue) :=
  [("force", .vBool true)]

/-- `readRoleID` (vault.go lines 321-327): no nil guard, so a nil secret
or a missing/mistyped `role_id` field panics. -/
def VaultProvider.readRoleID (v : VaultProvider) (b : Backend) (appRoleName : String) :
    Outcome String × List BCall :=
  match b.read (roleIdPath appRoleName) with
  | .error e => (.err (.msg e), [.read (roleIdPath appRoleName)])
  | .ok none => (.panic, [.read (roleIdPath appRoleName)])
  | .ok (some secret) =>
    match lookupData secret.data "role_id" with
    | some (.vStr s) => (.ok s, [.read (roleIdPath appRoleName)])
    | _ => (.panic, [.read (roleIdPath appRoleName)])

/-- `readSecretID` (vault.go lines 329-338): no nil guard, so a nil
secret or a missing/mistyped `secret_id` field panics. -/
def VaultProvider.readSecretID (v : VaultProvider) (b : Backend) (appRoleName : String) :
    Outcome String × List BCall :=
  match b.write (secretIdPath appRoleName) readSecretIDOptions with
  | .error e => (.err (.msg e), [.write (secretIdPath appRoleName) readSecretIDOptions])
  | .ok none => (.panic, [.write (secretIdPath appRoleName) readSecretIDOptions])
  | .ok (some secret) =>
    match lookupData secret.data "secret_id" with
    | some (.vStr s) => (.ok s, [.write (secretIdPath appRoleName) readSecretIDOptions])
    | _ => (.panic, [.write (secretIdPath appRoleName) readSecretIDOptions])

/-- `CreateProject` (vault.go lines 126-152): admin gate, then policy
write, identity write, secret-id generation, role-id read — in that
order, stopping at the first error. -/
def VaultProvider.CreateProject (v : VaultProvider) (b : Backend) (name : String) :
    Outcome (String × String) × List BCall :=
  if !v.isAdmin then
    (.err (.msg "admin credentials must be used to create project"), [])
  else
    let r1 := createPolicyState b name (defaultVaultReadonlyPolicyAWS name)
    match r1.1 with
    | some e => (.err (.msg e), r1.2)
    | none =>
      let r2 := v.writeProjectState b name
      match r2.1 with
      | some e => (.err (.msg e), r1.2 ++ r2.2)
      | none =>
        match v.readSecretID b name with
        | (.ok secretID, c3) =>
          match v.readRoleID b name with
          | (.ok roleID, c4) => (.ok (roleID, secretID), r1.2 ++ r2.2 ++ c3 ++ c4)
          | (.err e, c4) => (.err e, r1.2 ++ r2.2 ++ c3 ++ c4)
          | (.panic, c4) => (.panic, r1.2 ++ r2.2 ++ c3 ++ c4)
        | (.err e, c3) => (.err e, r1.2 ++ r2.2 ++ c3)
        | (.panic, c3) => (.panic, r1.2 ++ r2.2 ++ c3)

/-- Target entry path `aws/roles/<nsPrefix>-<project>-target-<target>`
(vault.go lines 172 and 238 build the same string). -/
def targetPath (projectName targetName : String) : String :=
  "aws/roles/" ++ vaultProjectPfx ++ "-" ++ projectName ++ "-target-" ++ targetName

/-- The options map written by `CreateTarget` (vault.go lines 166-170):
`role_arns` holds the single roleArn STRING, `policy_arns` the list. -/
def createTargetOptions (ctr : CreateTargetRequest) : List (String × VaultValue) :=
  [("role_arns", .vStr ctr.Properties.RoleArn),
   ("credential_type", .vStr ctr.Properties.CredentialType),
   ("policy_arns", .vList (ctr.Properties.PolicyArns.map .vStr))]

/-- `CreateTarget` (vault.go lines 156-175). -/
def VaultProvider.CreateTarget (v : VaultProvider) (b : Backend) (projectName : String)
    (ctr : CreateTargetRequest) : Outcome Unit × List BCall :=
  if !v.isAdmin then
    (.err (.msg "admin credentials must be used to create target"), [])
  else
    match b.write (targetPath projectName ctr.Name) (createTargetOptions ctr) with
    | .error e => (.err (.msg e), [.write (targetPath projectName ctr.Name) (createTargetOptions ctr)])
    | .ok _ => (.ok (), [.write (targetPath projectName ctr.Name) (createTargetOptions ctr)])

/-- `DeleteProject` (vault.go lines 188-202): policy deletion then
identity deletion, each failure wrapped with operation context. -/
def VaultProvider.DeleteProject (v : VaultProvider) (b : Backend) (name : String) :
    Outcome Unit × List BCall :=
  if !v.isAdmin then
    (.err (.msg "admin credentials must be used to delete project"), [])
  else
    match b.deletePolicy (projectPolicyName name) with
    | some e => (.err (.msg ("vault delete project error: " ++ e)), [.deletePolicy (projectPolicyName name)])
    | none =>
      match b.delete (genProjectAppRole name) with
      | .error e => (.err (.msg ("vault delete project error: " ++ e)),
          [.deletePolicy (projectPolicyName name), .delete (genProjectAppRole name)])
      | .ok _ => (.ok (), [.deletePolicy (projectPolicyName name), .delete (genProjectAppRole name)])

/-- `DeleteTarget` (vault.go lines 204-212): the backend error is
returned unwrapped. -/
def VaultProvider.DeleteTarget (v : VaultProvider) (b : Backend) (projectName targetName : String) :
    Outcome Unit × List BCall :=
  if !v.isAdmin then
    (.err (.msg "admin credentials must be used to delete target"), [])
  else
    match b.delete (targetPath projectName targetName) with
    | .error e => (.err (.msg e), [.delete (targetPath projectName targetName)])
    | .ok _ => (.ok (), [.delete (targetPath projectName targetName)])

/-- `GetProject` (vault.go lines 222-231): NOT admin-gated; a nil secret
maps to the sentinel `ErrNotFound`. -/
def VaultProvider.GetProject (v : VaultProvider) (b : Backend) (projectName : String) :
    Outcome String × List BCall :=
  match b.read (genProjectAppRole projectName) with
  | .error e => (.err (.msg ("vault get project error: " ++ e)), [.read (genProjectAppRole projectName)])
  | .ok none => (.err .notFound, [.read (genProjectAppRole projectName)])
  | .ok (some _) =>
    (.ok ("\x7b\"name\":\"" ++ projectName ++ "\"\x7d"), [.read (genProjectAppRole projectName)])

/-- The dynamic casts of `GetTarget` (vault.go lines 247-254): all the
elements of `policy_arns` must be strings. -/
def asStrings : List VaultValue → Option (List String)
  | [] => some []
  | .vStr s :: rest => (asStrings rest).map (fun l => s :: l)
  | _ :: _ => none

/-- The decode sequence of `GetTarget` (vault.go lines 247-254):
`role_arns` must be a list whose FIRST element is a string (later
elements are never inspected), `policy_arns` a list of strings,
`credential_type` a string; `none` models the Go panic of a failed
type assertion or out-of-range index. -/
def decodeTargetProps (data : List (String × VaultValue)) : Option TargetProperties :=
  match lookupData data "role_arns" with
  | some (.vList (.vStr roleArn :: _)) =>
    match lookupData data "policy_arns" with
    | some (.vList policyArns) =>
      match lookupData data "credential_type" with
      | some (.vStr credentialType) =>
        match asStrings policyArns with
        | some policies =>
          some { CredentialType := credentialType, PolicyArns := policies, RoleArn := roleArn }
        | none => none
      | _ => none
    | _ => none
  | _ => none

/-- `GetTarget` (vault.go lines 233-257). -/
def VaultProvider.GetTarget (v : VaultProvider) (b : Backend) (projectName targetName : String) :
    Outcome TargetProperties × List BCall :=
  if !v.isAdmin then
    (.err (.msg "admin credentials must be used to get target information"), [])
  else
    match b.read (targetPath projectName targetName) with
    | .error e => (.err (.msg ("vault get target error: " ++ e)), [.read (targetPath projectName targetName)])
    | .ok none => (.err (.msg "target not found"), [.read (targetPath projectName targetName)])
    | .ok (some sec) =>
      match decodeTargetProps sec.data with
      | some props => (.ok props, [.read (targetPath projectName targetName)])
      | none => (.panic, [.read (targetPath projectName targetName)])

/-- The options map of `GetToken` (vault.go lines 264-267). -/
def loginOptions (roleID secretID : String) : List (String × VaultValue) :=
  [("role_id", .vStr roleID), ("secret_id", .vStr secretID)]

/-- `GetToken` (vault.go lines 259-276): gated AGAINST admin; a nil
secret or nil auth block panics on `sec.Auth.ClientToken`. -/
def VaultProvider.GetToken (v : VaultProvider) (b : Backend) :
    Outcome String × List BCall :=
  if v.isAdmin then
    (.err (.msg "admin credentials cannot be used to get tokens"), [])
  else
    match b.write "auth/approle/login" (loginOptions v.roleID v.secretID) with
    | .error e => (.err (.msg e), [.write "auth/approle/login" (loginOptions v.roleID v.secretID)])
    | .ok none => (.panic, [.write "auth/approle/login" (loginOptions v.roleID v.secretID)])
    | .ok (some sec) =>
      match sec.auth with
      | none => (.panic, [.write "auth/approle/login" (loginOptions v.roleID v.secretID)])
      | some tok => (.ok tok, [.write "auth/approle/login" (loginOptions v.roleID v.secretID)])

/-- `strings.HasPrefix` on the character lists. -/
def goHasPfx (s pfx : String) : Bool :=
  pfx.toList.isPrefixOf s.toList

/-- `strings.Replace(s, pat, rep, 1)`: replace the first occurrence. -/
def replaceFirstChars (s pat rep : List Char) : List Char :=
  match s with
  | [] => if pat.isEmpty then rep else []
  | c :: rest =>
    if pat.isPrefixOf (c :: rest) then rep ++ (c :: rest).drop pat.length
    else c :: replaceFirstChars rest pat rep

/-- `strings.Replace(s, pat, rep, 1)` on strings. -/
def replaceFirst (s pat rep : String) : String :=
  String.mk (replaceFirstChars s.toList pat.toList rep.toList)

/-- The per-project key prefix of `ListTargets` (vault.go line 298). -/
def listTargetPfx (project : String) : String :=
  "argo-cloudops-projects-" ++ project ++ "-target-"

/-- The filtering loop of `ListTargets` (vault.go lines 296-302):
each key must be a string (else the type assertion panics, `none`);
matching keys keep their suffix after the project prefix. -/
def collectTargets (project : String) : List VaultValue → Option (List String)
  | [] => some []
  | .vStr value :: rest =>
    (collectTargets project rest).map (fun lst =>
      if goHasPfx value (listTargetPfx project) then
        replaceFirst value (listTargetPfx project) "" :: lst
      else lst)
  | _ :: _ => none

/-- `ListTargets` (vault.go lines 283-306): the success value is the Go
slice, `some []` mirroring `make([]string, 0)` — `none` would model a
nil slice and is never produced on success. -/
def VaultProvider.ListTargets (v : VaultProvider) (b : Backend) (project : String) :
    Outcome (Option (List String)) × List BCall :=
  if !v.isAdmin then
    (.err (.msg "admin credentials must be used to list targets"), [])
  else
    match b.listKeys "aws/roles/" with
    | .error e => (.err (.msg ("vault list error: " ++ e)), [.listCall "aws/roles/"])
    | .ok none => (.ok (some []), [.listCall "aws/roles/"])
    | .ok (some sec) =>
      match lookupData sec.data "keys" with
      | some (.vList xs) =>
        match collectTargets project xs with
        | some lst => (.ok (some lst), [.listCall "aws/roles/"])
        | none => (.panic, [.listCall "aws/roles/"])
      | _ => (.panic, [.listCall "aws/roles/"])

/-- `ProjectExists` (vault.go lines 308-319): `ErrNotFound` maps to
`false`, other errors propagate, success maps to a non-empty check. -/
def VaultProvider.ProjectExists (v : VaultProvider) (b : Backend) (name : String) :
    Outcome Bool × List BCall :=
  match v.GetProject b name with
  | (.ok p, calls) => (.ok (p != ""), calls)
  | (.err .notFound, calls) => (.ok false, calls)
  | (.err e, calls) => (.err e, calls)
  | (.panic, calls) => (.panic, calls)

/-- `TargetExists` (vault.go lines 340-343): unimplemented stub. -/
def VaultProvider.TargetExists (v : VaultProvider) (b : Backend) (name : String) :
    Outcome Bool × List BCall :=
  (.ok false, [])

/-- Decidable equality for `Except`, used to evaluate fixtures. -/
instance exceptDecEq {ε α : Type} [DecidableEq ε] [DecidableEq α] :
    DecidableEq (Except ε α) := fun x y =>
  match x, y with
  | .ok a, .ok b =>
    match decEq a b with
    | isTrue h => isTrue (by rw [h])
    | isFalse h => isFalse (by intro hh; injection hh; contradiction)
  | .error a, .error b =>
    match decEq a b with
    | isTrue h => isTrue (by rw [h])
    | isFalse h => isFalse (by intro hh; injection hh; contradiction)
  | .ok _, .error _ => isFalse (by intro h; exact Except.noConfusion h)
  | .error _, .ok _ => isFalse (by intro h; exact Except.noConfusion h)

/-! ### Concrete fixtures used by witnesses and counterexamples -/

/-- A tenant (non-admin) caller. -/
def tenantAuth : Authorization := { Provider := "vault", Key := "k", Secret := "s" }

/-- The same tenant key with a different secret. -/
def tenantAuth2 : Authorization := { Provider := "approle", Key := "k", Secret := "other" }

/-- An admin caller. -/
def adminAuth : Authorization := { Provider := "vault", Key := "admin", Secret := "as" }

/-- Another admin caller with a different bound secret. -/
def adminAuth2 : Authorization := { Provider := "vault", Key := "admin", Secret := "bs" }

def tenantProv : VaultProvider := NewVaultProvider tenantAuth

def adminProv : VaultProvider := NewVaultProvider adminAuth

/-- A backend every call of which succeeds with a nil secret. -/
def nilBackend : Backend :=
  { read := fun _ => .ok none
    write := fun _ _ => .ok none
    delete := fun _ => .ok none
    listKeys := fun _ => .ok none
    putPolicy := fun _ _ => none
    deletePolicy := fun _ => none }

/-! ### C5: NewAuthorization parsing -/

theorem splitFirstColon_no_colon (cs : List Char) (h : ':' ∉ cs) :
    splitFirstColon cs = (cs, none) := by
  induction cs with
  | nil => rfl
  | cons c rest ih =>
    have hc : ¬(c = ':') := fun hc => h (by rw [hc]; exact List.mem_cons_self _ _)
    have hr : ':' ∉ rest := fun hm => h (List.mem_cons_of_mem c hm)
    simp [splitFirstColon, hc, ih hr]

theorem splitFirstColon_append (p rest : List Char) (h : ':' ∉ p) :
    splitFirstColon (p ++ ':' :: rest) = (p, some rest) := by
  induction p with
  | nil => simp [splitFirstColon]
  | cons c cs ih =>
    have hc : ¬(c = ':') := fun hc => h (by rw [hc]; exact List.mem_cons_self _ _)
    have hcs : ':' ∉ cs := fun hm => h (List.mem_cons_of_mem c hm)
    simp [splitFirstColon, hc, ih hcs]

theorem string_mk_toList (s : String) : String.mk s.toList = s := rfl

theorem splitN3Colon_of_shape (p k s : String) (hp : ':' ∉ p.toList) (hk : ':' ∉ k.toList) :
    splitN3Colon (p ++ ":" ++ k ++ ":" ++ s) = [p, k, s] := by
  have hdata : (p ++ ":" ++ k ++ ":" ++ s).toList =
      p.toList ++ ':' :: (k.toList ++ ':' :: s.toList) := by
    simp [String.toList, String.data_append]
  simp only [splitN3Colon, hdata, splitFirstColon_append _ _ hp,
    splitFirstColon_append _ _ hk, string_mk_toList]

theorem splitN3Colon_length_le (t : String) : (splitN3Colon t).length ≤ 3 := by
  unfold splitN3Colon
  cases h1 : (splitFirstColon t.data).2 with
  | none => simp [h1]
  | some r1 => cases h2 : (splitFirstColon r1).2 <;> simp [h1, h2]

theorem newAuthorization_error_of (t : String)
    (h : "" ∈ splitN3Colon t ∨ (splitN3Colon t).length < 3) :
    NewAuthorization t = .error "invalid authorization header provided" := by
  unfold NewAuthorization
  by_cases h1 : "" ∈ splitN3Colon t
  · simp [h1]
  · have h2 : (splitN3Colon t).length < 3 := h.resolve_left h1
    simp [h1, h2]

theorem newAuthorization_ok_inv (t : String) (a : Authorization)
    (h : NewAuthorization t = .ok a) :
    splitN3Colon t = [a.Provider, a.Key, a.Secret] ∧
      a.Provider ≠ "" ∧ a.Key ≠ "" ∧ a.Secret ≠ "" := by
  unfold NewAuthorization at h
  by_cases h1 : "" ∈ splitN3Colon t
  · simp [h1] at h
  · by_cases h2 : (splitN3Colon t).length < 3
    · simp [h1, h2] at h
    · have hlen : (splitN3Colon t).length = 3 := by
        have := splitN3Colon_length_le t
        omega
      obtain ⟨x, y, z, hxyz⟩ := List.length_eq_three.mp hlen
      rw [hxyz] at h h1
      simp [h1, h2, hxyz] at h
      subst h
      refine ⟨by simp [hxyz], fun h0 => h1 ?_, fun h0 => h1 ?_, fun h0 => h1 ?_⟩
      · rw [← h0]; simp
      · rw [← h0]; simp
      · rw [← h0]; simp

/-- Claim C5: `NewAuthorization` splits on the colon delimiter with only
the first two colons significant; three non-empty segments are required,
and the third segment keeps any further colons verbatim; otherwise the
call fails with the malformed-header error and returns no Authorization. -/
theorem c5_new_authorization_parse (p k s : String)
    (hp : ':' ∉ p.toList) (hk : ':' ∉ k.toList)
    (hp0 : p ≠ "") (hk0 : k ≠ "") (hs0 : s ≠ "") :
    NewAuthorization (p ++ ":" ++ k ++ ":" ++ s) =
      .ok { Provider := p, Key := k, Secret := s } ∧
    NewAuthorization "p:k:s" = .ok { Provider := "p", Key := "k", Secret := "s" } ∧
    NewAuthorization "p:k:s:extra" =
      .ok { Provider := "p", Key := "k", Secret := "s:extra" } ∧
    NewAuthorization "p:k:" = .error "invalid authorization header provided" ∧
    NewAuthorization "p::s" = .error "invalid authorization header provided" ∧
    NewAuthorization "p:k" = .error "invalid authorization header provided" ∧
    NewAuthorization "" = .error "invalid authorization header provided" ∧
    (∀ t : String, ("" ∈ splitN3Colon t ∨ (splitN3Colon t).length < 3) →
      NewAuthorization t = .error "invalid authorization header provided") ∧
    (∀ t a, NewAuthorization t = .ok a →
      splitN3Colon t = [a.Provider, a.Key, a.Secret] ∧
        a.Provider ≠ "" ∧ a.Key ≠ "" ∧ a.Secret ≠ "") := by
  refine ⟨?_, by decide, by decide, by decide, by decide, by decide, by decide,
    fun t h => newAuthorization_error_of t h,
    fun t a h => newAuthorization_ok_inv t a h⟩
  have hsplit := splitN3Colon_of_shape p k s hp hk
  unfold NewAuthorization
  rw [hsplit]
  have h1 : ¬("" ∈ [p, k, s]) := by
    intro hmem
    rcases List.mem_cons.mp hmem with h | hmem
    · exact hp0 h.symm
    rcases List.mem_cons.mp hmem with h | hmem
    · exact hk0 h.symm
    rcases List.mem_cons.mp hmem with h | hmem
    · exact hs0 h.symm
    · exact List.not_mem_nil _ hmem
  simp [h1]

/-- Witness for C5 at a concrete header whose secret contains a colon. -/
theorem c5_witness :
    (':' ∉ "pr".toList) ∧ (':' ∉ "key".toList) ∧
    ("pr" : String) ≠ "" ∧ ("key" : String) ≠ "" ∧ ("se:cr" : String) ≠ "" ∧
    NewAuthorization ("pr" ++ ":" ++ "key" ++ ":" ++ "se:cr") =
      .ok { Provider := "pr", Key := "key", Secret := "se:cr" } :=
  ⟨by decide, by decide, by decide, by decide, by decide,
    (c5_new_authorization_parse "pr" "key" "se:cr" (by decide) (by decide)
      (by decide) (by decide) (by decide)).1⟩


/-! ### C9: the readonly policy synthesizer -/

theorem defaultVaultReadonlyPolicyAWS_inj (n1 n2 : String)
    (h : defaultVaultReadonlyPolicyAWS n1 = defaultVaultReadonlyPolicyAWS n2) :
    n1 = n2 := by
  unfold defaultVaultReadonlyPolicyAWS at h
  have hd := congrArg String.data h
  simp only [String.data_append, List.append_assoc, List.append_right_inj,
    List.append_left_inj] at hd
  exact String.ext hd

/-- Claim C9: the readonly-policy synthesizer is a pure function of the
project name producing exactly the statement that grants read capability
on the path pattern of the project target namespace; distinct names give
distinct outputs, each containing its own name and its own path pattern. -/
theorem c9_policy_synthesizer (n1 n2 : String) (h : n1 ≠ n2) :
    defaultVaultReadonlyPolicyAWS n1 ≠ defaultVaultReadonlyPolicyAWS n2 ∧
    (∀ m : String, defaultVaultReadonlyPolicyAWS m =
      "path \"aws/sts/argo-cloudops-projects-" ++ m ++
        "-target-*\" \x7b capabilities = [\"read\"] \x7d") ∧
    (∀ m : String, List.IsInfix m.toList (defaultVaultReadonlyPolicyAWS m).toList) ∧
    (∀ m : String,
      List.IsInfix ("aws/sts/argo-cloudops-projects-" ++ m ++ "-target-*").toList
        (defaultVaultReadonlyPolicyAWS m).toList) := by
  refine ⟨fun he => h (defaultVaultReadonlyPolicyAWS_inj n1 n2 he), fun m => rfl, ?_, ?_⟩
  · intro m
    refine ⟨"path \"aws/sts/argo-cloudops-projects-".toList,
      "-target-*\" \x7b capabilities = [\"read\"] \x7d".toList, ?_⟩
    simp [defaultVaultReadonlyPolicyAWS, String.toList, String.data_append]
  · intro m
    refine ⟨"path \"".toList,
      "\" \x7b capabilities = [\"read\"] \x7d".toList, ?_⟩
    simp [defaultVaultReadonlyPolicyAWS, String.toList, String.data_append]

/-- Witness for C9 at two concrete distinct project names. -/
theorem c9_witness :
    ("alpha" : String) ≠ "beta" ∧
    defaultVaultReadonlyPolicyAWS "alpha" ≠ defaultVaultReadonlyPolicyAWS "beta" :=
  ⟨by decide, (c9_policy_synthesizer "alpha" "beta" (by decide)).1⟩

/-! ### C2: authorization decisions depend only on the bound Key -/

theorem getToken_trace (v : VaultProvider) (b : Backend) (h : v.isAdmin = false) :
    (v.GetToken b).2 = [.write "auth/approle/login" (loginOptions v.roleID v.secretID)] := by
  unfold VaultProvider.GetToken
  rw [h]
  simp only [Bool.false_eq_true, if_false]
  cases hw : b.write "auth/approle/login" (loginOptions v.roleID v.secretID) with
  | error e => rfl
  | ok o =>
    cases o with
    | none => rfl
    | some sec => cases hau : sec.auth <;> simp [hau]

/-- Claim C2: every authorization decision of a constructed provider
depends only on the Key of the Authorization it was built from — all
operations other than GetToken return literally identical results for
two Authorizations with equal Key, and GetToken takes its
PermissionDenied branch for one iff it does for the other; the bound
secret is never compared against a process-wide admin secret. -/
theorem c2_auth_depends_only_on_key (a1 a2 : Authorization) (hk : a1.Key = a2.Key) :
    ((NewVaultProvider a1).isAdmin = a1.IsAdmin) ∧
    ((NewVaultProvider a2).isAdmin = (NewVaultProvider a1).isAdmin) ∧
    (∀ b name, (NewVaultProvider a1).CreateProject b name =
      (NewVaultProvider a2).CreateProject b name) ∧
    (∀ b pn ctr, (NewVaultProvider a1).CreateTarget b pn ctr =
      (NewVaultProvider a2).CreateTarget b pn ctr) ∧
    (∀ b name, (NewVaultProvider a1).DeleteProject b name =
      (NewVaultProvider a2).DeleteProject b name) ∧
    (∀ b pn tn, (NewVaultProvider a1).DeleteTarget b pn tn =
      (NewVaultProvider a2).DeleteTarget b pn tn) ∧
    (∀ b name, (NewVaultProvider a1).GetProject b name =
      (NewVaultProvider a2).GetProject b name) ∧
    (∀ b pn tn, (NewVaultProvider a1).GetTarget b pn tn =
      (NewVaultProvider a2).GetTarget b pn tn) ∧
    (∀ b proj, (NewVaultProvider a1).ListTargets b proj =
      (NewVaultProvider a2).ListTargets b proj) ∧
    (∀ b name, (NewVaultProvider a1).ProjectExists b name =
      (NewVaultProvider a2).ProjectExists b name) ∧
    (∀ b name, (NewVaultProvider a1).TargetExists b name =
      (NewVaultProvider a2).TargetExists b name) ∧
    (∀ b, ((NewVaultProvider a1).GetToken b =
        (.err (.msg "admin credentials cannot be used to get tokens"), []) ↔
      (NewVaultProvider a2).GetToken b =
        (.err (.msg "admin credentials cannot be used to get tokens"), []))) := by
  obtain ⟨p1, k1, s1⟩ := a1
  obtain ⟨p2, k2, s2⟩ := a2
  simp only [Authorization.Key] at hk
  subst hk
  refine ⟨rfl, rfl, fun b name => rfl, fun b pn ctr => rfl, fun b name => rfl,
    fun b pn tn => rfl, fun b name => rfl, fun b pn tn => rfl, fun b proj => rfl,
    fun b name => rfl, fun b name => rfl, ?_⟩
  intro b
  by_cases hadm : k1 = "admin"
  · subst hadm
    simp [VaultProvider.GetToken, VaultProvider.isAdmin, NewVaultProvider]
  · have hb : (k1 == "admin") = false := beq_eq_false_iff_ne.mpr hadm
    have t1 := getToken_trace (NewVaultProvider ⟨p1, k1, s1⟩) b
      (by simp [VaultProvider.isAdmin, NewVaultProvider, hb])
    have t2 := getToken_trace (NewVaultProvider ⟨p2, k1, s2⟩) b
      (by simp [VaultProvider.isAdmin, NewVaultProvider, hb])
    constructor <;> intro h
    · exfalso
      have h2 := congrArg Prod.snd h
      rw [t1] at h2
      simp at h2
    · exfalso
      have h2 := congrArg Prod.snd h
      rw [t2] at h2
      simp at h2

/-- Witness for C2: two admin Authorizations differing in Provider and
Secret take the same branches. -/
theorem c2_witness :
    adminAuth.Key = adminAuth2.Key ∧
    (NewVaultProvider adminAuth).GetProject nilBackend "p" =
      (NewVaultProvider adminAuth2).GetProject nilBackend "p" ∧
    ((NewVaultProvider adminAuth).GetToken nilBackend =
        (.err (.msg "admin credentials cannot be used to get tokens"), []) ↔
      (NewVaultProvider adminAuth2).GetToken nilBackend =
        (.err (.msg "admin credentials cannot be used to get tokens"), [])) :=
  ⟨rfl,
    (c2_auth_depends_only_on_key adminAuth adminAuth2 rfl).2.2.2.2.2.2.1 nilBackend "p",
    (c2_auth_depends_only_on_key adminAuth adminAuth2 rfl).2.2.2.2.2.2.2.2.2.2.2 nilBackend⟩


/-! ### C1: the admin gate -/

theorem getProject_trace (v : VaultProvider) (b : Backend) (name : String) :
    (v.GetProject b name).2 = [.read (genProjectAppRole name)] := by
  unfold VaultProvider.GetProject
  cases hr : b.read (genProjectAppRole name) with
  | error e => rfl
  | ok o => cases o <;> rfl

theorem projectExists_trace (v : VaultProvider) (b : Backend) (name : String) :
    (v.ProjectExists b name).2 = (v.GetProject b name).2 := by
  unfold VaultProvider.ProjectExists
  rcases hg : v.GetProject b name with ⟨r, calls⟩
  cases r with
  | ok p => simp
  | err e => cases e <;> simp
  | panic => simp

/-- Claim C1 (amended): the six operations CreateProject, CreateTarget,
DeleteProject, DeleteTarget, GetTarget and ListTargets, invoked on a
provider constructed from non-admin credentials, fail with their
PermissionDenied error before any backend call; GetProject and
ProjectExists are NOT admin-gated and always issue the backend read. -/
theorem c1_admin_gate (a : Authorization) (b : Backend)
    (name pn tn proj : String) (ctr : CreateTargetRequest)
    (h : a.Key ≠ "admin") :
    (NewVaultProvider a).CreateProject b name =
      (.err (.msg "admin credentials must be used to create project"), []) ∧
    (NewVaultProvider a).CreateTarget b pn ctr =
      (.err (.msg "admin credentials must be used to create target"), []) ∧
    (NewVaultProvider a).DeleteProject b name =
      (.err (.msg "admin credentials must be used to delete project"), []) ∧
    (NewVaultProvider a).DeleteTarget b pn tn =
      (.err (.msg "admin credentials must be used to delete target"), []) ∧
    (NewVaultProvider a).GetTarget b pn tn =
      (.err (.msg "admin credentials must be used to get target information"), []) ∧
    (NewVaultProvider a).ListTargets b proj =
      (.err (.msg "admin credentials must be used to list targets"), []) ∧
    ((NewVaultProvider a).GetProject b name).2 = [.read (genProjectAppRole name)] ∧
    ((NewVaultProvider a).ProjectExists b name).2 = [.read (genProjectAppRole name)] := by
  have hb : (a.Key == "admin") = false := beq_eq_false_iff_ne.mpr h
  have hadm : (NewVaultProvider a).isAdmin = false := by
    simp [VaultProvider.isAdmin, NewVaultProvider, hb]
  refine ⟨?_, ?_, ?_, ?_, ?_, ?_, getProject_trace _ b name,
    (projectExists_trace _ b name).trans (getProject_trace _ b name)⟩
  · simp [VaultProvider.CreateProject, hadm]
  · simp [VaultProvider.CreateTarget, hadm]
  · simp [VaultProvider.DeleteProject, hadm]
  · simp [VaultProvider.DeleteTarget, hadm]
  · simp [VaultProvider.GetTarget, hadm]
  · simp [VaultProvider.ListTargets, hadm]

/-- A concrete create-target request. -/
def sampleTarget : CreateTargetRequest :=
  { Name := "t"
    Properties :=
      { CredentialType := "assumed_role"
        PolicyArns := ["arn:aws:iam::012345678901:policy/p"]
        RoleArn := "arn:aws:iam::012345678901:role/r" }
    «Type» := "aws_account" }

/-- Counterexample to C1 as stated: GetProject on a provider built from
non-admin credentials does NOT fail with PermissionDenied — it issues a
backend read (and ProjectExists likewise reports on the backend state). -/
theorem c1_counterexample :
    tenantProv.isAdmin = false ∧
    tenantProv.GetProject nilBackend "proj" =
      (.err .notFound, [.read (genProjectAppRole "proj")]) ∧
    tenantProv.ProjectExists nilBackend "proj" =
      (.ok false, [.read (genProjectAppRole "proj")]) := by
  decide

/-- Witness for C1 at concrete non-admin credentials. -/
theorem c1_witness :
    tenantAuth.Key ≠ "admin" ∧
    (NewVaultProvider tenantAuth).CreateProject nilBackend "p" =
      (.err (.msg "admin credentials must be used to create project"), []) :=
  ⟨by decide,
    (c1_admin_gate tenantAuth nilBackend "p" "p" "t" "proj" sampleTarget (by decide)).1⟩

/-! ### C3: GetToken -/

/-- Claim C3: GetToken on an admin-classified provider fails with
PermissionDenied without touching the backend; on a tenant provider it
writes exactly the role-id/secret-id pair bound at construction to the
login endpoint, returns exactly the token the backend returned, and
surfaces a backend rejection as an error. -/
theorem c3_get_token (a : Authorization) (b : Backend) :
    (a.Key = "admin" →
      (NewVaultProvider a).GetToken b =
        (.err (.msg "admin credentials cannot be used to get tokens"), [])) ∧
    (a.Key ≠ "admin" →
      ((NewVaultProvider a).GetToken b).2 =
        [.write "auth/approle/login" (loginOptions a.Key a.Secret)] ∧
      (∀ sec tok,
        b.write "auth/approle/login" (loginOptions a.Key a.Secret) = .ok (some sec) →
        sec.auth = some tok →
        ((NewVaultProvider a).GetToken b).1 = .ok tok) ∧
      (∀ e, b.write "auth/approle/login" (loginOptions a.Key a.Secret) = .error e →
        ((NewVaultProvider a).GetToken b).1 = .err (.msg e))) := by
  constructor
  · intro hadm
    simp [VaultProvider.GetToken, VaultProvider.isAdmin, NewVaultProvider, hadm]
  · intro h
    have hb : (a.Key == "admin") = false := beq_eq_false_iff_ne.mpr h
    have hadm : (NewVaultProvider a).isAdmin = false := by
      simp [VaultProvider.isAdmin, NewVaultProvider, hb]
    refine ⟨getToken_trace _ b hadm, ?_, ?_⟩
    · intro sec tok hw hau
      unfold VaultProvider.GetToken
      rw [hadm]
      simp only [Bool.false_eq_true, if_false]
      rw [show b.write "auth/approle/login"
          (loginOptions (NewVaultProvider a).roleID (NewVaultProvider a).secretID) =
          .ok (some sec) from hw]
      simp [hau]
    · intro e hw
      unfold VaultProvider.GetToken
      rw [hadm]
      simp only [Bool.false_eq_true, if_false]
      rw [show b.write "auth/approle/login"
          (loginOptions (NewVaultProvider a).roleID (NewVaultProvider a).secretID) =
          .error e from hw]

/-- A backend whose login endpoint issues the bearer token "tok". -/
def tokenBackend : Backend :=
  { nilBackend with
    write := fun path _ =>
      if path = "auth/approle/login" then .ok (some { data := [], auth := some "tok" })
      else .ok none }

/-- Witness for C3: a tenant provider receives exactly the token the
backend returned. -/
theorem c3_witness :
    tenantAuth.Key ≠ "admin" ∧
    ((NewVaultProvider tenantAuth).GetToken tokenBackend).2 =
      [.write "auth/approle/login" (loginOptions "k" "s")] ∧
    ((NewVaultProvider tenantAuth).GetToken tokenBackend).1 = .ok "tok" := by
  have h := (c3_get_token tenantAuth tokenBackend).2 (by decide)
  exact ⟨by decide, h.1, h.2.1 { data := [], auth := some "tok" } "tok" rfl rfl⟩


/-! ### C4: CreateProject step sequence -/

/-- Claim C4 (amended): under the admin precondition CreateProject
performs exactly, in order: (a) the policy write; (b) the identity write
with the fixed operational parameters; (c) the forced secret-id
generation; (d) the role-id read — the first error is returned as-is and
no rollback call is ever issued (the trace is exactly the prefix of
completed steps). -/
theorem c4_create_project_steps (v : VaultProvider) (b : Backend) (name : String)
    (hadmin : v.isAdmin = true) :
    (writeProjectStateOptions name =
      [("secret_id_ttl", .vStr "8776h"), ("token_max_ttl", .vStr "10m"),
       ("token_no_default_policy", .vStr "true"), ("token_num_uses", .vInt 3),
       ("token_policies", .vStr ("argo-cloudops-projects-" ++ name))]) ∧
    (∀ e, b.putPolicy (projectPolicyName name) (defaultVaultReadonlyPolicyAWS name) = some e →
      v.CreateProject b name = (.err (.msg e),
        [.putPolicy (projectPolicyName name) (defaultVaultReadonlyPolicyAWS name)])) ∧
    (∀ e, b.putPolicy (projectPolicyName name) (defaultVaultReadonlyPolicyAWS name) = none →
      b.write (genProjectAppRole name) (writeProjectStateOptions name) = .error e →
      v.CreateProject b name = (.err (.msg e),
        [.putPolicy (projectPolicyName name) (defaultVaultReadonlyPolicyAWS name),
         .write (genProjectAppRole name) (writeProjectStateOptions name)])) ∧
    (∀ w e, b.putPolicy (projectPolicyName name) (defaultVaultReadonlyPolicyAWS name) = none →
      b.write (genProjectAppRole name) (writeProjectStateOptions name) = .ok w →
      b.write (secretIdPath name) readSecretIDOptions = .error e →
      v.CreateProject b name = (.err (.msg e),
        [.putPolicy (projectPolicyName name) (defaultVaultReadonlyPolicyAWS name),
         .write (genProjectAppRole name) (writeProjectStateOptions name),
         .write (secretIdPath name) readSecretIDOptions])) ∧
    (∀ w sec1 sid e,
      b.putPolicy (projectPolicyName name) (defaultVaultReadonlyPolicyAWS name) = none →
      b.write (genProjectAppRole name) (writeProjectStateOptions name) = .ok w →
      b.write (secretIdPath name) readSecretIDOptions = .ok (some sec1) →
      lookupData sec1.data "secret_id" = some (.vStr sid) →
      b.read (roleIdPath name) = .error e →
      v.CreateProject b name = (.err (.msg e),
        [.putPolicy (projectPolicyName name) (defaultVaultReadonlyPolicyAWS name),
         .write (genProjectAppRole name) (writeProjectStateOptions name),
         .write (secretIdPath name) readSecretIDOptions,
         .read (roleIdPath name)])) ∧
    (∀ w sec1 sid sec2 rid,
      b.putPolicy (projectPolicyName name) (defaultVaultReadonlyPolicyAWS name) = none →
      b.write (genProjectAppRole name) (writeProjectStateOptions name) = .ok w →
      b.write (secretIdPath name) readSecretIDOptions = .ok (some sec1) →
      lookupData sec1.data "secret_id" = some (.vStr sid) →
      b.read (roleIdPath name) = .ok (some sec2) →
      lookupData sec2.data "role_id" = some (.vStr rid) →
      v.CreateProject b name = (.ok (rid, sid),
        [.putPolicy (projectPolicyName name) (defaultVaultReadonlyPolicyAWS name),
         .write (genProjectAppRole name) (writeProjectStateOptions name),
         .write (secretIdPath name) readSecretIDOptions,
         .read (roleIdPath name)])) := by
  refine ⟨rfl, ?_, ?_, ?_, ?_, ?_⟩
  · intro e hpp
    simp [VaultProvider.CreateProject, createPolicyState, hadmin, hpp]
  · intro e hpp hw
    simp [VaultProvider.CreateProject, createPolicyState, VaultProvider.writeProjectState,
      hadmin, hpp, hw]
  · intro w e hpp hw hs
    simp [VaultProvider.CreateProject, createPolicyState, VaultProvider.writeProjectState,
      VaultProvider.readSecretID, hadmin, hpp, hw, hs]
  · intro w sec1 sid e hpp hw hs hls hr
    simp [VaultProvider.CreateProject, createPolicyState, VaultProvider.writeProjectState,
      VaultProvider.readSecretID, VaultProvider.readRoleID, hadmin, hpp, hw, hs, hls, hr]
  · intro w sec1 sid sec2 rid hpp hw hs hls hr hlr
    simp [VaultProvider.CreateProject, createPolicyState, VaultProvider.writeProjectState,
      VaultProvider.readSecretID, VaultProvider.readRoleID, hadmin, hpp, hw, hs, hls, hr, hlr]

/-- A backend on which all four CreateProject steps succeed with
well-shaped data (role-id readable, secret-id generable). -/
def goodBackend : Backend :=
  { read := fun _ => .ok (some { data := [("role_id", .vStr "rid")], auth := none })
    write := fun path _ =>
      if path = secretIdPath "p" then
        .ok (some { data := [("secret_id", .vStr "sid")], auth := none })
      else .ok none
    delete := fun _ => .ok none
    listKeys := fun _ => .ok none
    putPolicy := fun _ _ => none
    deletePolicy := fun _ => none }

/-- Counterexample to C4 as stated: the third and fourth backend steps
are the forced secret-id WRITE and then the role-id READ — not the
role-id read followed by the secret-id generation as claimed. -/
theorem c4_counterexample :
    adminProv.isAdmin = true ∧
    (adminProv.CreateProject goodBackend "p").2 =
      [.putPolicy (projectPolicyName "p") (defaultVaultReadonlyPolicyAWS "p"),
       .write (genProjectAppRole "p") (writeProjectStateOptions "p"),
       .write (secretIdPath "p") readSecretIDOptions,
       .read (roleIdPath "p")] ∧
    (adminProv.CreateProject goodBackend "p").2 ≠
      [.putPolicy (projectPolicyName "p") (defaultVaultReadonlyPolicyAWS "p"),
       .write (genProjectAppRole "p") (writeProjectStateOptions "p"),
       .read (roleIdPath "p"),
       .write (secretIdPath "p") readSecretIDOptions] := by
  decide

/-- Witness for C4 on the all-steps-succeed backend. -/
theorem c4_witness :
    adminProv.CreateProject goodBackend "p" =
      (.ok ("rid", "sid"),
       [.putPolicy (projectPolicyName "p") (defaultVaultReadonlyPolicyAWS "p"),
        .write (genProjectAppRole "p") (writeProjectStateOptions "p"),
        .write (secretIdPath "p") readSecretIDOptions,
        .read (roleIdPath "p")]) := by
  have h := c4_create_project_steps adminProv goodBackend "p" (by decide)
  exact h.2.2.2.2.2 none { data := [("secret_id", .vStr "sid")], auth := none } "sid"
    { data := [("role_id", .vStr "rid")], auth := none } "rid" rfl rfl rfl rfl rfl rfl

/-! ### C10: nil-secret handling -/

/-- Claim C10: a backend call that succeeds with a nil secret makes
GetToken, and CreateProject via readSecretID and via readRoleID, panic
(unguarded dereference), while GetProject, GetTarget and ListTargets
guard the nil response and return their not-found/empty results. -/
theorem c10_nil_secret_guards (v : VaultProvider) (b : Backend) (name pn tn proj : String) :
    (v.isAdmin = false →
      b.write "auth/approle/login" (loginOptions v.roleID v.secretID) = .ok none →
      v.GetToken b = (.panic, [.write "auth/approle/login" (loginOptions v.roleID v.secretID)])) ∧
    (v.isAdmin = true →
      b.putPolicy (projectPolicyName name) (defaultVaultReadonlyPolicyAWS name) = none →
      (∀ w, b.write (genProjectAppRole name) (writeProjectStateOptions name) = .ok w →
        (b.write (secretIdPath name) readSecretIDOptions = .ok none →
          v.CreateProject b name = (.panic,
            [.putPolicy (projectPolicyName name) (defaultVaultReadonlyPolicyAWS name),
             .write (genProjectAppRole name) (writeProjectStateOptions name),
             .write (secretIdPath name) readSecretIDOptions])) ∧
        (∀ sec1 sid, b.write (secretIdPath name) readSecretIDOptions = .ok (some sec1) →
          lookupData sec1.data "secret_id" = some (.vStr sid) →
          b.read (roleIdPath name) = .ok none →
          v.CreateProject b name = (.panic,
            [.putPolicy (projectPolicyName name) (defaultVaultReadonlyPolicyAWS name),
             .write (genProjectAppRole name) (writeProjectStateOptions name),
             .write (secretIdPath name) readSecretIDOptions,
             .read (roleIdPath name)])))) ∧
    (b.read (genProjectAppRole name) = .ok none →
      v.GetProject b name = (.err .notFound, [.read (genProjectAppRole name)])) ∧
    (v.isAdmin = true → b.read (targetPath pn tn) = .ok none →
      v.GetTarget b pn tn = (.err (.msg "target not found"), [.read (targetPath pn tn)])) ∧
    (v.isAdmin = true → b.listKeys "aws/roles/" = .ok none →
      v.ListTargets b proj = (.ok (some []), [.listCall "aws/roles/"])) := by
  refine ⟨?_, ?_, ?_, ?_, ?_⟩
  · intro hadm hw
    unfold VaultProvider.GetToken
    rw [hadm]
    simp [hw]
  · intro hadm hpp
    intro w hw
    constructor
    · intro hs
      simp [VaultProvider.CreateProject, createPolicyState, VaultProvider.writeProjectState,
        VaultProvider.readSecretID, hadm, hpp, hw, hs]
    · intro sec1 sid hs hls hr
      simp [VaultProvider.CreateProject, createPolicyState, VaultProvider.writeProjectState,
        VaultProvider.readSecretID, VaultProvider.readRoleID, hadm, hpp, hw, hs, hls, hr]
  · intro hread
    simp [VaultProvider.GetProject, hread]
  · intro hadm hread
    simp [VaultProvider.GetTarget, hadm, hread]
  · intro hadm hlist
    simp [VaultProvider.ListTargets, hadm, hlist]

/-- A backend giving a proper secret-id but a nil role-id read. -/
def sidBackend : Backend :=
  { nilBackend with
    write := fun path _ =>
      if path = secretIdPath "p" then
        .ok (some { data := [("secret_id", .vStr "sid")], auth := none })
      else .ok none }

/-- Witness for C10 on concrete nil-responding backends. -/
theorem c10_witness :
    tenantProv.GetToken nilBackend =
      (.panic, [.write "auth/approle/login" (loginOptions "k" "s")]) ∧
    adminProv.CreateProject nilBackend "p" =
      (.panic,
       [.putPolicy (projectPolicyName "p") (defaultVaultReadonlyPolicyAWS "p"),
        .write (genProjectAppRole "p") (writeProjectStateOptions "p"),
        .write (secretIdPath "p") readSecretIDOptions]) ∧
    adminProv.CreateProject sidBackend "p" =
      (.panic,
       [.putPolicy (projectPolicyName "p") (defaultVaultReadonlyPolicyAWS "p"),
        .write (genProjectAppRole "p") (writeProjectStateOptions "p"),
        .write (secretIdPath "p") readSecretIDOptions,
        .read (roleIdPath "p")]) ∧
    adminProv.GetProject nilBackend "p" =
      (.err .notFound, [.read (genProjectAppRole "p")]) ∧
    adminProv.GetTarget nilBackend "p" "t" =
      (.err (.msg "target not found"), [.read (targetPath "p" "t")]) ∧
    adminProv.ListTargets nilBackend "p" =
      (.ok (some []), [.listCall "aws/roles/"]) := by
  refine ⟨(c10_nil_secret_guards tenantProv nilBackend "p" "p" "t" "p").1 (by decide) rfl,
    ((c10_nil_secret_guards adminProv nilBackend "p" "p" "t" "p").2.1 (by decide) rfl
      none rfl).1 rfl,
    ((c10_nil_secret_guards adminProv sidBackend "p" "p" "t" "p").2.1 (by decide) rfl
      none rfl).2 { data := [("secret_id", .vStr "sid")], auth := none } "sid" rfl rfl rfl,
    (c10_nil_secret_guards adminProv nilBackend "p" "p" "t" "p").2.2.1 rfl,
    (c10_nil_secret_guards adminProv nilBackend "p" "p" "t" "p").2.2.2.1 (by decide) rfl,
    (c10_nil_secret_guards adminProv nilBackend "p" "p" "t" "p").2.2.2.2 (by decide) rfl⟩


/-! ### C8: ListTargets filtering -/

/-- The suffix of a string after a prefix of the given length. -/
def dropPfxStr (s pfx : String) : String :=
  String.mk (s.toList.drop pfx.toList.length)

theorem replaceFirstChars_of_pfx (s pat : List Char) (h : pat.isPrefixOf s = true) :
    replaceFirstChars s pat [] = s.drop pat.length := by
  cases s with
  | nil =>
    cases pat with
    | nil => rfl
    | cons c cs => simp [List.isPrefixOf] at h
  | cons c rest => simp [replaceFirstChars, h]

theorem replaceFirst_of_pfx (s pfx : String) (h : goHasPfx s pfx = true) :
    replaceFirst s pfx "" = dropPfxStr s pfx := by
  unfold goHasPfx at h
  unfold replaceFirst dropPfxStr
  rw [show ("" : String).toList = [] from rfl, replaceFirstChars_of_pfx s.toList pfx.toList h]

theorem collectTargets_map_vStr (project : String) (keys : List String) :
    collectTargets project (keys.map VaultValue.vStr) =
      some ((keys.filter (fun k => goHasPfx k (listTargetPfx project))).map
        (fun k => replaceFirst k (listTargetPfx project) "")) := by
  induction keys with
  | nil => rfl
  | cons k ks ih =>
    by_cases h : goHasPfx k (listTargetPfx project) = true
    · simp [collectTargets, ih, List.filter_cons, h]
    · simp [collectTargets, ih, List.filter_cons, h]

/-- Claim C8: on a successful backend list, ListTargets returns exactly
the keys bearing the project-specific prefix, with that prefix stripped,
and the success value is never a nil slice — the empty and no-match
cases yield the empty sequence. -/
theorem c8_list_targets (v : VaultProvider) (b : Backend) (project : String)
    (hadmin : v.isAdmin = true) :
    (b.listKeys "aws/roles/" = .ok none →
      v.ListTargets b project = (.ok (some []), [.listCall "aws/roles/"])) ∧
    (∀ (keys : List String) (au : Option String), b.listKeys "aws/roles/" =
        .ok (some { data := [("keys", .vList (keys.map VaultValue.vStr))], auth := au }) →
      v.ListTargets b project =
        (.ok (some ((keys.filter (fun k => goHasPfx k (listTargetPfx project))).map
          (fun k => dropPfxStr k (listTargetPfx project)))), [.listCall "aws/roles/"])) ∧
    (∀ r calls, v.ListTargets b project = (.ok r, calls) → r ≠ none) := by
  refine ⟨?_, ?_, ?_⟩
  · intro hlist
    simp [VaultProvider.ListTargets, hadmin, hlist]
  · intro keys au hlist
    have hmap : (keys.filter (fun k => goHasPfx k (listTargetPfx project))).map
        (fun k => replaceFirst k (listTargetPfx project) "") =
        (keys.filter (fun k => goHasPfx k (listTargetPfx project))).map
        (fun k => dropPfxStr k (listTargetPfx project)) := by
      apply List.map_congr_left
      intro x hx
      exact replaceFirst_of_pfx x _ (List.mem_filter.mp hx).2
    simp [VaultProvider.ListTargets, hadmin, hlist, lookupData,
      collectTargets_map_vStr, hmap]
  · intro r calls hres
    cases hl : b.listKeys "aws/roles/" with
    | error e => simp [VaultProvider.ListTargets, hadmin, hl] at hres
    | ok o =>
      cases o with
      | none =>
        simp [VaultProvider.ListTargets, hadmin, hl] at hres
        obtain ⟨h1, h2⟩ := hres
        rw [← h1]
        simp
      | some sec =>
        cases hk : lookupData sec.data "keys" with
        | none => simp [VaultProvider.ListTargets, hadmin, hl, hk] at hres
        | some vv =>
          cases vv with
          | vStr s => simp [VaultProvider.ListTargets, hadmin, hl, hk] at hres
          | vInt n => simp [VaultProvider.ListTargets, hadmin, hl, hk] at hres
          | vBool b2 => simp [VaultProvider.ListTargets, hadmin, hl, hk] at hres
          | vList xs =>
            cases hc : collectTargets project xs with
            | none => simp [VaultProvider.ListTargets, hadmin, hl, hk, hc] at hres
            | some lst =>
              simp [VaultProvider.ListTargets, hadmin, hl, hk, hc] at hres
              obtain ⟨h1, h2⟩ := hres
              rw [← h1]
              simp

/-- The three backend keys of the C8 example. -/
def exampleKeys : List String :=
  ["argo-cloudops-projects-proj1-target-a",
   "argo-cloudops-projects-proj1-target-b",
   "argo-cloudops-projects-proj2-target-c"]

/-- A backend listing three target role keys across two projects. -/
def keysBackend : Backend :=
  { nilBackend with
    listKeys := fun _ =>
      .ok (some { data := [("keys", .vList (exampleKeys.map .vStr))], auth := none }) }

/-- Witness for C8 on the three-key backend and on an empty listing. -/
theorem c8_witness :
    adminProv.isAdmin = true ∧
    adminProv.ListTargets keysBackend "proj1" =
      (.ok (some ["a", "b"]), [.listCall "aws/roles/"]) ∧
    adminProv.ListTargets nilBackend "proj1" =
      (.ok (some []), [.listCall "aws/roles/"]) := by
  have h := (c8_list_targets adminProv keysBackend "proj1" (by decide)).2.1
    exampleKeys none rfl
  exact ⟨by decide, h.trans (by decide),
    (c8_list_targets adminProv nilBackend "proj1" (by decide)).1 rfl⟩


/-! ### C7: GetTarget decoding of the backend response -/

/-- Flat shape condition of the GetTarget decode: `role_arns` is a list
with a string head (later elements are never inspected), `policy_arns`
is a list of strings, `credential_type` is a string. -/
def wellShapedTarget (data : List (String × VaultValue)) : Bool :=
  (match lookupData data "role_arns" with
   | some (.vList (.vStr _ :: _)) => true
   | _ => false) &&
  (match lookupData data "policy_arns" with
   | some (.vList xs) => (asStrings xs).isSome
   | _ => false) &&
  (match lookupData data "credential_type" with
   | some (.vStr _) => true
   | _ => false)

theorem decodeTargetProps_isSome (data : List (String × VaultValue)) :
    (decodeTargetProps data).isSome = wellShapedTarget data := by
  unfold decodeTargetProps wellShapedTarget
  cases h1 : lookupData data "role_arns" with
  | none => rfl
  | some v1 =>
    cases v1 with
    | vStr s => rfl
    | vInt n => rfl
    | vBool b => rfl
    | vList xs =>
      cases xs with
      | nil => rfl
      | cons hd tl =>
        cases hd with
        | vInt n => rfl
        | vBool b => rfl
        | vList ys => rfl
        | vStr r =>
          cases h2 : lookupData data "policy_arns" with
          | none => rfl
          | some v2 =>
            cases v2 with
            | vStr s2 => rfl
            | vInt n2 => rfl
            | vBool b2 => rfl
            | vList ys =>
              cases h3 : lookupData data "credential_type" with
              | none => simp
              | some v3 =>
                cases v3 with
                | vStr c => cases h4 : asStrings ys <;> simp [h4]
                | vInt n3 => simp
                | vBool b3 => simp
                | vList zs => simp

/-- Claim C7 (amended): with an admin provider, a backend response whose
`role_arns`/`policy_arns`/`credential_type` fields are not of the shape
the decode expects makes GetTarget PANIC (a Go runtime abort from the
unchecked type assertions), not return an ordinary error result; a
well-shaped response decodes to exactly the fields of the response —
never to a silently defaulted value. -/
theorem c7_get_target_decode (v : VaultProvider) (b : Backend) (pn tn : String) (sec : VSecret)
    (hadmin : v.isAdmin = true)
    (hread : b.read (targetPath pn tn) = .ok (some sec)) :
    (wellShapedTarget sec.data = false →
      v.GetTarget b pn tn = (.panic, [.read (targetPath pn tn)])) ∧
    (wellShapedTarget sec.data = true →
      ∃ props, v.GetTarget b pn tn = (.ok props, [.read (targetPath pn tn)]) ∧
        decodeTargetProps sec.data = some props) ∧
    (∀ props, v.GetTarget b pn tn = (.ok props, [.read (targetPath pn tn)]) →
      decodeTargetProps sec.data = some props) := by
  refine ⟨?_, ?_, ?_⟩
  · intro hshape
    have hdec : decodeTargetProps sec.data = none := by
      have := decodeTargetProps_isSome sec.data
      rw [hshape] at this
      exact Option.not_isSome_iff_eq_none.mp (by rw [this]; simp)
    simp [VaultProvider.GetTarget, hadmin, hread, hdec]
  · intro hshape
    have hsome : (decodeTargetProps sec.data).isSome := by
      rw [decodeTargetProps_isSome, hshape]
    obtain ⟨props, hp⟩ := Option.isSome_iff_exists.mp hsome
    exact ⟨props, by simp [VaultProvider.GetTarget, hadmin, hread, hp], hp⟩
  · intro props h
    cases hd : decodeTargetProps sec.data with
    | none => simp [VaultProvider.GetTarget, hadmin, hread, hd] at h
    | some p =>
      simp [VaultProvider.GetTarget, hadmin, hread, hd] at h
      rw [h]

/-- A backend response with `role_arns` missing entirely. -/
def badTargetBackend : Backend :=
  { nilBackend with
    read := fun _ =>
      .ok (some { data := [("policy_arns", .vList []), ("credential_type", .vStr "x")]
                  auth := none }) }

/-- A backend response in which `role_arns` is NOT a list of strings
(its second element is an integer) yet every inspected position is
well-typed. -/
def oddTargetBackend : Backend :=
  { nilBackend with
    read := fun _ =>
      .ok (some { data := [("role_arns", .vList [.vStr "good", .vInt 2]),
                           ("policy_arns", .vList [.vStr "pa"]),
                           ("credential_type", .vStr "ct")]
                  auth := none }) }

/-- Counterexample to C7 as stated: a missing `role_arns` makes
GetTarget panic instead of returning an ordinary error result, and a
`role_arns` that is not a list of strings can still succeed because only
its first element is inspected. -/
theorem c7_counterexample :
    adminProv.GetTarget badTargetBackend "p" "t" =
      (.panic, [.read (targetPath "p" "t")]) ∧
    adminProv.GetTarget oddTargetBackend "p" "t" =
      (.ok { CredentialType := "ct", PolicyArns := ["pa"], RoleArn := "good" },
       [.read (targetPath "p" "t")]) := by
  decide

/-- A well-shaped target response. -/
def wellTargetData : List (String × VaultValue) :=
  [("role_arns", .vList [.vStr "ra"]),
   ("policy_arns", .vList [.vStr "pa"]),
   ("credential_type", .vStr "ct")]

def wellTargetBackend : Backend :=
  { nilBackend with
    read := fun _ => .ok (some { data := wellTargetData, auth := none }) }

/-- Witness for C7 on a well-shaped and on a malformed response. -/
theorem c7_witness :
    wellShapedTarget wellTargetData = true ∧
    (∃ props, adminProv.GetTarget wellTargetBackend "p" "t" =
        (.ok props, [.read (targetPath "p" "t")]) ∧
      decodeTargetProps wellTargetData = some props) :=
  ⟨by decide,
    (c7_get_target_decode adminProv wellTargetBackend "p" "t"
      { data := wellTargetData, auth := none } (by decide) rfl).2.1 (by decide)⟩

/-! ### C6: the create/get target round trip -/

/-- A backend that returns on read exactly the key-value data that
CreateTarget wrote for `sampleTarget` in project `proj`. -/
def echoTargetBackend : Backend :=
  { nilBackend with
    read := fun path =>
      if path = targetPath "proj" "t" then
        .ok (some { data := createTargetOptions sampleTarget, auth := none })
      else .ok none }

/-- Claim C6 evaluated at its failing input: CreateTarget writes
`role_arns` as a single string, so on a backend echoing exactly the
written data the subsequent GetTarget panics on the list type assertion
instead of returning the created TargetProperties. -/
theorem c6_roundtrip_panics :
    adminProv.CreateTarget echoTargetBackend "proj" sampleTarget =
      (.ok (), [.write (targetPath "proj" "t") (createTargetOptions sampleTarget)]) ∧
    echoTargetBackend.read (targetPath "proj" "t") =
      .ok (some { data := createTargetOptions sampleTarget, auth := none }) ∧
    lookupData (createTargetOptions sampleTarget) "role_arns" =
      some (.vStr sampleTarget.Properties.RoleArn) ∧
    adminProv.GetTarget echoTargetBackend "proj" "t" =
      (.panic, [.read (targetPath "proj" "t")]) := by
  refine ⟨by decide, rfl, by decide, by decide⟩


end Credentials
